import Mathlib

/-!
Verification of the intent-routing and data-query core of the
Multi-Agent-Analyst repository.

The development shallowly embeds the decision logic of
`src/agents/coordinator.py` (intent parsing, state machine, workflow
assembly), `src/agents/data_agent.py` (profit-margin, revenue-trend and
top-product queries), and `src/agents/conversational_agent.py`
(business-mode model fallback).

Modelling conventions:
* Python strings are `List Char`; `str.lower` is modelled for the ASCII
  range (all keyword matching in the source is over ASCII).
* pandas/numpy float results that can be infinite or NaN are modelled by
  `PVal` (an exact rational extended with signed infinities and NaN);
  division follows IEEE semantics on exact operands, which is what numpy
  float64 division produces for the exact values used in the theorems.
* The external language-model client and the analytics runner are
  oracles: pure functions supplied in a `Ctx` record.
-/

/-- Code point of a character (Python `ord`). -/
def cn (c : Char) : ℕ := c.toNat

/-- Python `str.lower` on one ASCII character: the source lowercases user
input before keyword matching; all keywords are ASCII. -/
def lowC (c : Char) : Char :=
  if 65 ≤ cn c ∧ cn c ≤ 90 then Char.ofNat (cn c + 32) else c

/-- Python `str.lower` on a string (ASCII range). -/
def lowS (s : List Char) : List Char := s.map lowC

/-- `needle` is a prefix of `hay` (helper for substring containment). -/
def hasPre : List Char → List Char → Bool
  | [], _ => true
  | _ :: _, [] => false
  | a :: as, b :: bs => a == b && hasPre as bs

/-- Python `needle in hay` substring containment. -/
def hasSub (needle : List Char) : List Char → Bool
  | [] => hasPre needle []
  | c :: rest => hasPre needle (c :: rest) || hasSub needle rest

/-- ASCII decimal digit, the `\d` class of the year regex (inputs are ASCII). -/
def isDigitC (c : Char) : Bool := decide (48 ≤ cn c ∧ cn c ≤ 57)

/-- Python regex `\w` word character for ASCII: `[A-Za-z0-9_]`. -/
def isWordC (c : Char) : Bool :=
  decide ((48 ≤ cn c ∧ cn c ≤ 57) ∨ (65 ≤ cn c ∧ cn c ≤ 90) ∨
          (97 ≤ cn c ∧ cn c ≤ 122) ∨ cn c = 95)

/-- A `\b` word boundary holds after the year digits: either end of input
or a non-word character follows. -/
def nextBoundary : List Char → Bool
  | [] => true
  | e :: _ => !(isWordC e)

/-- Try to match the year pattern at the head of the list.  The source
regex for profit-margin queries is `\b(20\d{2}|201\d|202\d)\b` and for
top-product queries `\b(20\d{2})\b`.  The alternation branches `201\d` and
`202\d` are subsumed by `20\d{2}` (same start, same length, tried first),
so both regexes match exactly `\b20\d\d\b` and extract the same group;
a single function models both. -/
def yearAt : List Char → Option ℤ
  | a :: b :: c :: d :: rest =>
      if cn a = 50 ∧ cn b = 48 ∧ isDigitC c ∧ isDigitC d ∧ nextBoundary rest then
        some (2000 + 10 * ((cn c : ℤ) - 48) + ((cn d : ℤ) - 48))
      else none
  | _ => none

/-- `re.search` scan: leftmost match wins.  `p` records whether the
previous character was a word character (for the leading `\b`). -/
def extractYearAux (p : Bool) : List Char → Option ℤ
  | [] => none
  | c :: rest =>
      match (if p then none else yearAt (c :: rest)) with
      | some y => some y
      | none => extractYearAux (isWordC c) rest

/-- `re.search(r"\b(20\d{2}|...)\b", user_input)` followed by `int(...)`,
returning `none` when there is no match. -/
def extractYear (s : List Char) : Option ℤ := extractYearAux false s

theorem cn_ofNat (m : ℕ) (h : m < 55296) : cn (Char.ofNat m) = m := by
  have hv : m.isValidChar := Or.inl h
  simp [cn, Char.ofNat, hv, Char.ofNatAux, Char.toNat, UInt32.toNat, BitVec.toNat_ofNatLt]

theorem cn_lowC (c : Char) :
    cn (lowC c) = if 65 ≤ cn c ∧ cn c ≤ 90 then cn c + 32 else cn c := by
  unfold lowC
  split
  · next h => exact cn_ofNat _ (by omega)
  · rfl

theorem lowC_eq_self (c : Char) (h : ¬(65 ≤ cn c ∧ cn c ≤ 90)) : lowC c = c := by
  simp [lowC, h]

theorem lowC_idem (c : Char) : lowC (lowC c) = lowC c := by
  by_cases h : 65 ≤ cn c ∧ cn c ≤ 90
  · refine lowC_eq_self _ ?_
    rw [cn_lowC, if_pos h]
    omega
  · simp [lowC_eq_self c h]

theorem lowS_idem (s : List Char) : lowS (lowS s) = lowS s := by
  simp only [lowS, List.map_map]
  exact List.map_congr_left (fun c _ => lowC_idem c)

theorem isDigitC_lowC (c : Char) : isDigitC (lowC c) = isDigitC c := by
  simp only [isDigitC, decide_eq_decide, cn_lowC]
  split <;> omega

theorem isWordC_lowC (c : Char) : isWordC (lowC c) = isWordC c := by
  simp only [isWordC, decide_eq_decide, cn_lowC]
  split <;> omega

theorem cn_lowC_eq_of_lt (c : Char) (k : ℕ) (hk : k < 65) :
    (cn (lowC c) = k) ↔ (cn c = k) := by
  rw [cn_lowC]
  split <;> omega

theorem nextBoundary_lowS (l : List Char) : nextBoundary (lowS l) = nextBoundary l := by
  cases l with
  | nil => rfl
  | cons e rest => simp [lowS, nextBoundary, isWordC_lowC]

theorem lowC_of_digit (c : Char) (h : isDigitC c = true) : lowC c = c := by
  simp only [isDigitC, decide_eq_true_eq] at h
  exact lowC_eq_self c (by omega)

theorem yearAt_lowS (l : List Char) : yearAt (lowS l) = yearAt l := by
  match l with
  | [] => rfl
  | [_] => rfl
  | [_, _] => rfl
  | [_, _, _] => rfl
  | a :: b :: c :: d :: rest =>
    show yearAt (lowC a :: lowC b :: lowC c :: lowC d :: lowS rest) = _
    by_cases h : cn a = 50 ∧ cn b = 48 ∧ isDigitC c ∧ isDigitC d ∧ nextBoundary rest
    · obtain ⟨h1, h2, h3, h4, h5⟩ := h
      have la : lowC a = a := lowC_eq_self a (by omega)
      have lb : lowC b = b := lowC_eq_self b (by omega)
      have lc : lowC c = c := lowC_of_digit c h3
      have ld : lowC d = d := lowC_of_digit d h4
      rw [la, lb, lc, ld]
      simp only [yearAt, nextBoundary_lowS]
    · have hiff :
          (cn (lowC a) = 50 ∧ cn (lowC b) = 48 ∧ isDigitC (lowC c) ∧ isDigitC (lowC d) ∧
            nextBoundary (lowS rest)) ↔
          (cn a = 50 ∧ cn b = 48 ∧ isDigitC c ∧ isDigitC d ∧ nextBoundary rest) := by
        rw [cn_lowC_eq_of_lt a 50 (by omega), cn_lowC_eq_of_lt b 48 (by omega),
            isDigitC_lowC, isDigitC_lowC, nextBoundary_lowS]
      simp only [yearAt, if_neg h, if_neg (fun hx => h (hiff.mp hx))]

theorem extractYearAux_lowS (l : List Char) : ∀ p, extractYearAux p (lowS l) = extractYearAux p l := by
  induction l with
  | nil => intro p; rfl
  | cons c rest ih =>
    intro p
    show extractYearAux p (lowC c :: lowS rest) = extractYearAux p (c :: rest)
    have hy : yearAt (lowC c :: lowS rest) = yearAt (c :: rest) := yearAt_lowS (c :: rest)
    unfold extractYearAux
    rw [hy, isWordC_lowC]
    cases hcase : (if p then none else yearAt (c :: rest)) with
    | some y => rfl
    | none => exact ih (isWordC c)

theorem extractYear_lowS (s : List Char) : extractYear (lowS s) = extractYear s :=
  extractYearAux_lowS s false

theorem yearAt_range (l : List Char) (y : ℤ) (h : yearAt l = some y) :
    2000 ≤ y ∧ y ≤ 2099 := by
  match l with
  | [] => exact absurd h (by simp [yearAt])
  | [_] => exact absurd h (by simp [yearAt])
  | [_, _] => exact absurd h (by simp [yearAt])
  | [_, _, _] => exact absurd h (by simp [yearAt])
  | a :: b :: c :: d :: rest =>
    simp only [yearAt] at h
    by_cases hc : cn a = 50 ∧ cn b = 48 ∧ isDigitC c ∧ isDigitC d ∧ nextBoundary rest
    · rw [if_pos hc] at h
      obtain ⟨_, _, h3, h4, _⟩ := hc
      simp only [isDigitC, decide_eq_true_eq] at h3 h4
      simp only [Option.some.injEq] at h
      omega
    · rw [if_neg hc] at h
      exact absurd h (by simp)

theorem extractYearAux_range (l : List Char) :
    ∀ p y, extractYearAux p l = some y → 2000 ≤ y ∧ y ≤ 2099 := by
  induction l with
  | nil => intro p y h; exact absurd h (by simp [extractYearAux])
  | cons c rest ih =>
    intro p y h
    unfold extractYearAux at h
    cases hcase : (if p then none else yearAt (c :: rest)) with
    | some z =>
      simp only [hcase, Option.some.injEq] at h
      subst h
      by_cases hp : p
      · rw [if_pos hp] at hcase; exact absurd hcase (by simp)
      · rw [if_neg hp] at hcase
        exact yearAt_range _ _ hcase
    | none =>
      simp only [hcase] at h
      exact ih (isWordC c) y h

theorem extractYear_range (s : List Char) (y : ℤ) (h : extractYear s = some y) :
    2000 ≤ y ∧ y ≤ 2099 :=
  extractYearAux_range s false y h

/-! ## Intent routing (CoordinatorAgent._parse_intent) -/

/-- Rule 1 keywords: data loading. -/
def initKws : List (List Char) := ["load data".data, "prepare data".data, "initialize".data]

/-- Rule 2 keyword: profit-margin queries. -/
def pmKw : List Char := "profit margin".data

/-- Rule 3 keywords: revenue trends. -/
def trendKws : List (List Char) := ["revenue trend".data, "sales trend".data, "growth".data]

/-- Rule 4 keywords: top products. -/
def topKws : List (List Char) := ["top product".data, "best seller".data, "highest revenue".data]

/-- Rule 5 keywords: analytics requests. -/
def analyticsKws : List (List Char) :=
  ["analyze".data, "analysis".data, "report".data, "visualize".data, "chart".data]

/-- Python `any(keyword in user_lower for keyword in kws)`. -/
def anyKw (kws : List (List Char)) (s : List Char) : Bool := kws.any (fun k => hasSub k s)

/-- The parsed intent.  `data_query` intents carry their `query_type` in
the constructor; profit-margin and top-product intents carry the
extracted `year` parameter (`none` models Python `None`). -/
inductive Intent where
  | initialization : Intent
  | dataQueryProfitMargin : Option ℤ → Intent
  | dataQueryRevenueTrends : Intent
  | dataQueryTopProducts : Option ℤ → Intent
  | analytics : Intent
  | conversation : Intent
deriving DecidableEq

/-- `CoordinatorAgent._parse_intent`: keyword checks run over the
lowercased input; the year regex runs over the raw input (digits and word
boundaries are unaffected by case). -/
def parseIntent (s : List Char) : Intent :=
  let ls := lowS s
  if anyKw initKws ls then .initialization
  else if hasSub pmKw ls then .dataQueryProfitMargin (extractYear s)
  else if anyKw trendKws ls then .dataQueryRevenueTrends
  else if anyKw topKws ls then .dataQueryTopProducts (extractYear s)
  else if anyKw analyticsKws ls then .analytics
  else .conversation

/-- The ordered rule table exactly as the spec lists it: a predicate on
the lowercased text and the produced intent, in precedence order. -/
def routeRules : List ((List Char → Bool) × (List Char → Intent)) :=
  [(anyKw initKws, fun _ => .initialization),
   (hasSub pmKw, fun s => .dataQueryProfitMargin (extractYear s)),
   (anyKw trendKws, fun _ => .dataQueryRevenueTrends),
   (anyKw topKws, fun s => .dataQueryTopProducts (extractYear s)),
   (anyKw analyticsKws, fun _ => .analytics)]

/-- First-match-wins resolution over an ordered rule list (the spec
formulation of the router), defaulting to `conversation`. -/
def firstMatch (s : List Char) : List ((List Char → Bool) × (List Char → Intent)) → Intent
  | [] => .conversation
  | (p, f) :: rs => if p (lowS s) then f s else firstMatch s rs

/-- Spec-side router: lowest-numbered matching rule wins. -/
def routeSpec (s : List Char) : Intent := firstMatch s routeRules

/-! ## Exact extended rationals (pandas/numpy float results) -/

/-- Result values of pandas arithmetic on exact data: a rational, a signed
infinity, or NaN (which pandas renders as null/None in records). -/
inductive PVal where
  | num : ℚ → PVal
  | pinf : PVal
  | ninf : PVal
  | nan : PVal
deriving DecidableEq

/-- IEEE float64 division semantics on exact operands (numpy: `x / 0.0`
is `inf`/`-inf` for nonzero `x` and `nan` for `0.0 / 0.0`). -/
def fdivQ (a b : ℚ) : PVal :=
  if b = 0 then (if a = 0 then .nan else if 0 < a then .pinf else .ninf)
  else .num (a / b)

/-- Multiply by a positive rational constant (e.g. `* 100`). -/
def pmulPos (v : PVal) (q : ℚ) : PVal :=
  match v with
  | .num x => .num (x * q)
  | .pinf => .pinf
  | .ninf => .ninf
  | .nan => .nan

/-- Subtract 1 (the `- 1` inside pandas `pct_change`). -/
def psub1 : PVal → PVal
  | .num x => .num (x - 1)
  | .pinf => .pinf
  | .ninf => .ninf
  | .nan => .nan

/-- `df.replace([np.inf, -np.inf], np.nan)` on one value. -/
def replaceInfNan : PVal → PVal
  | .pinf => .nan
  | .ninf => .nan
  | v => v

/-- Round half to even to an integer (Python `round` / numpy rounding). -/
def roundHE (x : ℚ) : ℤ :=
  let f := ⌊x⌋
  let r := x - (f : ℚ)
  if r < 1/2 then f else if 1/2 < r then f + 1 else if Even f then f else f + 1

/-- `round(x, 2)`. -/
def round2 (x : ℚ) : ℚ := (roundHE (x * 100) : ℚ) / 100

/-- `.round(2)` on a pandas value: infinities and NaN are unchanged. -/
def pround2 : PVal → PVal
  | .num q => .num (round2 q)
  | v => v

/-- Per-row `Profit_Margin` feature of `DataAgent._engineer_features`:
`(Profit / Revenue) * 100` followed by the global
`replace([inf, -inf], nan)`. -/
def rowMargin (profit revenue : ℚ) : PVal :=
  replaceInfNan (pmulPos (fdivQ profit revenue) 100)

/-- pandas `pct_change` (`curr / prev - 1`) times 100: the raw
`Revenue_Growth_%` entry produced from two consecutive yearly revenues. -/
def growthRaw (prev curr : ℚ) : PVal := pmulPos (psub1 (fdivQ curr prev)) 100

/-! ## Dataset model and DataAgent queries -/

/-- One record of the prepared dataset, restricted to the columns the
core queries read.  `customerId` is the derived composite
`Customer_ID` key; monetary columns are exact rationals. -/
structure Row where
  year : ℤ
  product : List Char
  customerId : List Char
  orderQuantity : ℤ
  revenue : ℚ
  cost : ℚ
  profit : ℚ
deriving DecidableEq

/-- Insert into a strictly increasing list of years, dropping duplicates:
builds `sorted(df['Year'].unique().tolist())` and the ascending key order
of `groupby('Year')`. -/
def insYear (x : ℤ) : List ℤ → List ℤ
  | [] => [x]
  | y :: ys => if x < y then x :: y :: ys else if x = y then y :: ys else y :: insYear x ys

/-- Sorted distinct years of a column. -/
def sortedYears (l : List ℤ) : List ℤ := l.foldr insYear []

/-- Strict code-point lexicographic order on strings (Python `<` on str),
the order pandas uses for string/categorical group keys. -/
def lexLt : List Char → List Char → Bool
  | [], [] => false
  | [], _ :: _ => true
  | _ :: _, [] => false
  | a :: as, b :: bs =>
      if cn a < cn b then true else if cn a = cn b then lexLt as bs else false

/-- Insert into a strictly `lexLt`-increasing list of names, dropping
duplicates: the sorted distinct group keys of `groupby('Product')`
(observed categories). -/
def insName (x : List Char) : List (List Char) → List (List Char)
  | [] => [x]
  | y :: ys => if lexLt x y then x :: y :: ys else if x = y then y :: ys else y :: insName x ys

/-- Sorted distinct product names of a column. -/
def sortedNames (l : List (List Char)) : List (List Char) := l.foldr insName []

/-- Sum of a rational column over rows. -/
def sumQ (f : Row → ℚ) (rows : List Row) : ℚ := (rows.map f).sum

/-- Sum of an integer column over rows. -/
def sumZ (f : Row → ℤ) (rows : List Row) : ℤ := (rows.map f).sum

/-- `df['Customer_ID'].nunique()`. -/
def nuniqueCustomers (rows : List Row) : ℕ := ((rows.map (·.customerId)).dedup).length

/-- pandas elementwise comparison `df['Year'] == year` for an optional
year: comparing an integer series with Python `None` yields `False` for
every element, so a null year never matches a row. -/
def yearFilter (year : Option ℤ) (r : Row) : Bool :=
  match year with
  | some y => decide (r.year = y)
  | none => false

/-- Result of `DataAgent._get_profit_margin_by_year`: either the
not-found dictionary `{error, available_years}` (no `success` key, hence
falsy) or the success dictionary. -/
inductive PMResult where
  | notFound : Option ℤ → List ℤ → PMResult
  | ok : ℤ → ℚ → ℚ → ℚ → ℚ → ℕ → ℕ → PMResult
deriving DecidableEq

/-- The aggregate profit margin of the success branch:
`(total_profit / total_revenue * 100) if total_revenue > 0 else 0`,
then `round(float(...), 2)` (note `round(0, 2) = 0`). -/
def aggMargin (totalProfit totalRevenue : ℚ) : ℚ :=
  if 0 < totalRevenue then round2 (totalProfit / totalRevenue * 100) else 0

/-- `DataAgent._get_profit_margin_by_year(year)` on a loaded dataframe.
In the success constructor the arguments are, in order: year, revenue,
profit, cost, profit margin, total orders (row count), unique customers.
`int(year)` in the success branch is reachable only with an actual year,
since a null year matches no rows; `getD 0` names that value. -/
def profitMarginByYear (rows : List Row) (year : Option ℤ) : PMResult :=
  let yearData := rows.filter (yearFilter year)
  if yearData = [] then
    .notFound year (sortedYears (rows.map (·.year)))
  else
    let tr := sumQ (·.revenue) yearData
    .ok (year.getD 0) tr (sumQ (·.profit) yearData) (sumQ (·.cost) yearData)
      (aggMargin (sumQ (·.profit) yearData) tr)
      yearData.length (nuniqueCustomers yearData)

/-- One record of `_get_revenue_trends`: the `yearly_summary` row. -/
structure TrendRow where
  year : ℤ
  revenue : ℚ
  profit : ℚ
  orders : ℤ
  customers : ℕ
  profitMargin : PVal
  revenueGrowth : PVal
deriving DecidableEq

/-- Python truthiness of the optional year bounds (`if start_year:`):
`0` is falsy and disables the filter exactly like `None`. -/
def truthy : Option ℤ → Option ℤ
  | some y => if y = 0 then none else some y
  | none => none

/-- Yearly aggregation tuple before growth is attached:
(year, revenue, profit, orders, customers). -/
def yearAgg (rows : List Row) (y : ℤ) : ℤ × ℚ × ℚ × ℤ × ℕ :=
  let yd := rows.filter (fun r => decide (r.year = y))
  (y, sumQ (·.revenue) yd, sumQ (·.profit) yd, sumZ (·.orderQuantity) yd, nuniqueCustomers yd)

/-- Attach `Profit_Margin` and `Revenue_Growth_%` to the aggregated
rows.  `prev` is the previous yearly revenue (`none` on the first row,
giving the NaN that `pct_change` puts there). -/
def addGrowth (prev : Option ℚ) : List (ℤ × ℚ × ℚ × ℤ × ℕ) → List TrendRow
  | [] => []
  | (y, rev, prof, ord, cust) :: rest =>
      { year := y, revenue := rev, profit := prof, orders := ord, customers := cust,
        profitMargin := pround2 (pmulPos (fdivQ prof rev) 100),
        revenueGrowth :=
          match prev with
          | none => .nan
          | some p => pround2 (growthRaw p rev) } :: addGrowth (some rev) rest

/-- The rows surviving the optional truthy year bounds of
`_get_revenue_trends` (`if start_year:` / `if end_year:`). -/
def boundFiltered (rows : List Row) (startYear endYear : Option ℤ) : List Row :=
  let r1 := match truthy startYear with
    | some s => rows.filter (fun r => decide (s ≤ r.year))
    | none => rows
  match truthy endYear with
  | some e => r1.filter (fun r => decide (r.year ≤ e))
  | none => r1

/-- `DataAgent._get_revenue_trends(start_year, end_year)`: optional
truthy bounds filter the rows, then `groupby('Year')` (keys ascending)
aggregates and `pct_change` supplies the growth column.  The returned
dictionary always has `success: True`; the record list models its
`trends` entry. -/
def revenueTrends (rows : List Row) (startYear endYear : Option ℤ) : List TrendRow :=
  addGrowth none
    ((sortedYears ((boundFiltered rows startYear endYear).map (·.year))).map
      (yearAgg (boundFiltered rows startYear endYear)))

/-- One record of `_get_top_products`. -/
structure ProdRow where
  product : List Char
  revenue : ℚ
  profit : ℚ
  orders : ℤ
deriving DecidableEq

/-- Aggregate one product group. -/
def prodAgg (rows : List Row) (p : List Char) : ProdRow :=
  let pd := rows.filter (fun r => decide (r.product = p))
  { product := p, revenue := sumQ (·.revenue) pd, profit := sumQ (·.profit) pd,
    orders := sumZ (·.orderQuantity) pd }

/-- Insertion step of the descending-by-revenue sort: an element is
placed before the first existing element whose revenue is not larger. -/
def insDesc (a : ProdRow) : List ProdRow → List ProdRow
  | [] => [a]
  | b :: l => if b.revenue ≤ a.revenue then a :: b :: l else b :: insDesc a l

/-- `sort_values('Revenue', ascending=False)`.  The source uses the
default numpy quicksort, which is not stable, so the program leaves the
relative order of revenue ties unspecified.  An executable model must
fix some order; this insertion sort is one refinement of the
unspecified behaviour, and no theorem below relies on the order of
revenue ties. -/
def sortDesc : List ProdRow → List ProdRow
  | [] => []
  | a :: l => insDesc a (sortDesc l)

/-- The rows surviving the optional year filter of `_get_top_products`
(`if year:` Python truthiness). -/
def topFiltered (rows : List Row) (year : Option ℤ) : List Row :=
  match truthy year with
  | some y => rows.filter (fun r => decide (r.year = y))
  | none => rows

/-- Result dictionary of `_get_top_products`: `success` is always
`True`, `yearLabel` is the `year` entry (`none` rendering as `"all"`). -/
structure TopResult where
  success : Bool
  yearLabel : Option ℤ
  products : List ProdRow
deriving DecidableEq

/-- Group keys of `df_filtered.groupby('Product')`: `Product` is cast to
a categorical column on the full dataframe in `_clean_data`
(data_agent.py lines 87-91), and the groupby uses the pandas default
`observed=False`, so every category level of the full dataset appears
as a group — in ascending category (name) order — even when the year
filter removed all of its rows (empty groups aggregate to zero). -/
def topKeys (rows : List Row) : List (List Char) := sortedNames (rows.map (·.product))

/-- `DataAgent._get_top_products(year, limit)`: filter by truthy year,
`groupby('Product')` over all category levels of the full dataset
(`observed=False`), aggregate each group over the filtered rows, sort by
summed revenue descending, take the first `limit` groups. -/
def topProducts (rows : List Row) (year : Option ℤ) (limit : ℕ) : TopResult :=
  let fr := topFiltered rows year
  { success := true, yearLabel := truthy year,
    products := (sortDesc ((topKeys rows).map (prodAgg fr))).take limit }

/-! ## Conversational agent: business-mode model fallback -/

/-- `"429" in str(e) or "capacity" in str(e).lower()`: the capacity /
rate-limit failure classifier of `ConversationalAgent._business_chat`. -/
def isCapacityFailure (e : List Char) : Bool :=
  hasSub "429".data e || hasSub "capacity".data (lowS e)

/-- Outcome of the business-mode fallback loop: a successful exchange
(with the model that produced it), an immediately surfaced non-capacity
failure, or the terminal all-models-at-capacity result. -/
inductive ChatOutcome where
  | success : List Char → List Char → ChatOutcome
  | failure : List Char → ChatOutcome
  | exhausted : ChatOutcome
deriving DecidableEq

/-- The `for model in models` loop of `_business_chat`.  `exchange` is
the oracle for one `client.chat.complete` call: `ok` is the returned
text, `error` the exception text.  Capacity failures continue with the
next model; other failures return at once; an exhausted list returns the
terminal capacity result. -/
def businessFallback (exchange : List Char → Except (List Char) (List Char)) :
    List (List Char) → ChatOutcome
  | [] => .exhausted
  | m :: rest =>
      match exchange m with
      | .ok t => .success t m
      | .error e =>
          if isCapacityFailure e then businessFallback exchange rest else .failure e

/-- The ordered model list of `_business_chat`. -/
def modelList : List (List Char) :=
  ["open-mistral-7b".data, "mistral-tiny".data, "mistral-small-latest".data]

/-- The terminal failure message after the loop. -/
def msgAllCapacity : List Char := "All models are at capacity. Please try again later.".data

/-! ## Coordinator -/

/-- Component names as they appear in `workflow` lists
(`"data_agent"`, `"analytics_agent"`, `"conversational_agent"`). -/
inductive Comp where
  | dataAgent : Comp
  | analyticsAgent : Comp
  | conversationalAgent : Comp
deriving DecidableEq

/-- Result of a `ConversationalAgent` call as the coordinator reads it:
`success` plus the optional `response` text (a failure dictionary has no
`response` key). -/
structure ChatRes where
  success : Bool
  response : Option (List Char)
deriving DecidableEq

/-- The load summary returned by `load_and_prepare_data`. -/
structure LoadInfo where
  rows : ℕ
  cols : ℕ
  dateStart : List Char
  dateEnd : List Char
deriving DecidableEq

/-- A dispatched data query: query type plus parameters, as built by
`_handle_data_query` from the intent. -/
inductive QueryTask where
  | pm : Option ℤ → QueryTask
  | trends : QueryTask
  | top : Option ℤ → QueryTask
deriving DecidableEq

/-- The result a data query hands back to the coordinator. -/
inductive QueryOut where
  | pm : PMResult → QueryOut
  | trends : List TrendRow → QueryOut
  | top : TopResult → QueryOut
deriving DecidableEq

/-- `DataAgent.query_data` on the dispatched task.  The router never
emits `customer_analysis`, so that branch is unreachable from the
coordinator and is not modelled.  The coordinator passes no
`start_year`/`end_year`/`limit`, so trends get no bounds and top
products the default limit 5. -/
def runQuery (rows : List Row) : QueryTask → QueryOut
  | .pm y => .pm (profitMarginByYear rows y)
  | .trends => .trends (revenueTrends rows none none)
  | .top y => .top (topProducts rows y 5)

/-- `query_result.get("success")` truthiness: only the profit-margin
not-found dictionary is falsy. -/
def quSuccess : QueryOut → Bool
  | .pm (.notFound _ _) => false
  | _ => true

/-- Decimal rendering of a natural number. -/
def natChars (n : ℕ) : List Char := Nat.toDigits 10 n

/-- Decimal rendering of an integer (years and counts are nonnegative in
practice). -/
def intChars (n : ℤ) : List Char :=
  if n < 0 then Char.ofNat 45 :: natChars n.natAbs else natChars n.natAbs

/-- Python `str(year)` for the optional year inside the error message. -/
def showOptYear : Option ℤ → List Char
  | none => "None".data
  | some y => intChars y

/-- `query_result.get('error', 'Unknown error')`: the error message of a
failed query (only profit-margin queries can fail). -/
def quError : QueryOut → List Char
  | .pm (.notFound y _) => "No data found for year ".data ++ showOptYear y
  | _ => "Unknown error".data

/-- Single-quote character, spelled via its code point. -/
def apos : Char := Char.ofNat 39

/-- The fixed not-loaded response of `_handle_data_query`. -/
def msgNotLoadedQuery : List Char :=
  "⚠️ Data not loaded. Please load data first by saying ".data ++ [apos] ++
    "load data".data ++ [apos] ++ " or ".data ++ [apos] ++ "initialize".data ++ [apos] ++ ".".data

/-- The fixed not-loaded response of `_handle_analytics_request`. -/
def msgNotLoadedAnalytics : List Char := "⚠️ Data not loaded. Please load data first.".data

/-- Outcome of the analytics runner (`analytics_agent.process`). -/
inductive AnalyticsOut where
  | ok : AnalyticsOut
  | err : List Char → AnalyticsOut
deriving DecidableEq

/-- Outcome of `data_agent.process` for `load_and_prepare`. -/
inductive LoadOut where
  | ok : LoadInfo → LoadOut
  | err : List Char → LoadOut
deriving DecidableEq

/-- Structured payload attached to a response envelope (`data`,
`analysis` or `data_info` keys). -/
inductive Payload where
  | queryData : QueryOut → Payload
  | analysisDone : Payload
  | dataInfo : LoadOut → Payload
deriving DecidableEq

/-- The response envelope the coordinator returns.  Optional fields model
dictionary keys that some paths omit: in particular `workflow = none`
means the returned dictionary has no `workflow` key at all. -/
structure Env where
  success : Bool
  response : Option (List Char)
  workflow : Option (List Comp)
  payload : Option Payload
deriving DecidableEq

/-- Oracles and state the coordinator delegates to: the loaded dataframe,
the conversational agent (as pure functions of its inputs), the
analytics runner outcome, and the load outcome.  The model-fallback
internals of `chat` are verified separately on `businessFallback`. -/
structure Ctx where
  rows : List Row
  chat : List Char → List Char → ChatRes
  explainResults : QueryOut → ChatRes
  generateInsights : ChatRes
  analytics : AnalyticsOut
  load : LoadOut

/-- Rendering of the data summary used as conversation context when data
is loaded (`_handle_conversation`).  Thousand separators of the Python
format string are elided; no theorem inspects this text. -/
def summaryContext (rows : List Row) : List Char :=
  "Available data: ".data ++
    (sortedYears (rows.map (·.year))).foldr (fun y acc => intChars y ++ " ".data ++ acc) [] ++
    "| Total revenue".data

/-- Success message of `_handle_initialization` (thousand separators of
`{rows:,}` elided; no theorem inspects this text). -/
def initSuccessMsg (info : LoadInfo) : List Char :=
  "✅ Data loaded successfully!\n📊 ".data ++ natChars info.rows ++
    " records from ".data ++ info.dateStart ++ " to ".data ++ info.dateEnd ++
    "\nYou can now ask questions like:\n- ".data ++ [apos] ++
    "What was the profit margin in 2015?".data ++ [apos] ++ "\n- ".data ++ [apos] ++
    "Show me revenue trends".data ++ [apos] ++ "\n- ".data ++ [apos] ++
    "Analyze top products for 2016".data ++ [apos]

/-- `CoordinatorAgent._handle_data_query`.  Returns the envelope, the new
`data_loaded` flag, and the trace of components actually invoked. -/
def handleDataQuery (c : Ctx) (loaded : Bool) (input : List Char) (qt : QueryTask) :
    Env × Bool × List Comp :=
  if loaded then
    let q := runQuery c.rows qt
    if quSuccess q then
      let ex := c.explainResults q
      ({ success := true, response := ex.response,
         workflow := some [.dataAgent, .conversationalAgent],
         payload := some (.queryData q) }, loaded, [.dataAgent, .conversationalAgent])
    else
      let cr := c.chat input ("Query failed: ".data ++ quError q)
      ({ success := cr.success, response := cr.response, workflow := none, payload := none },
        loaded, [.dataAgent, .conversationalAgent])
  else
    ({ success := false, response := some msgNotLoadedQuery, workflow := none, payload := none },
      loaded, [])

/-- `CoordinatorAgent._handle_analytics_request`. -/
def handleAnalytics (c : Ctx) (loaded : Bool) : Env × Bool × List Comp :=
  if loaded then
    match c.analytics with
    | .err e =>
        ({ success := false, response := some ("Analysis failed: ".data ++ e),
           workflow := none, payload := none }, loaded, [.analyticsAgent])
    | .ok =>
        ({ success := true, response := c.generateInsights.response,
           workflow := some [.dataAgent, .analyticsAgent, .conversationalAgent],
           payload := some .analysisDone }, loaded, [.analyticsAgent, .conversationalAgent])
  else
    ({ success := false, response := some msgNotLoadedAnalytics, workflow := none, payload := none },
      loaded, [])

/-- `CoordinatorAgent._handle_conversation`: when data is loaded the
data agent is consulted for a summary context first. -/
def handleConversation (c : Ctx) (loaded : Bool) (input : List Char) : Env × Bool × List Comp :=
  let ctxText := if loaded then summaryContext c.rows else []
  let cr := c.chat input ctxText
  ({ success := cr.success, response := cr.response,
     workflow := some [.conversationalAgent], payload := none },
    loaded,
    if loaded then [.dataAgent, .conversationalAgent] else [.conversationalAgent])

/-- `CoordinatorAgent._handle_initialization`: `data_loaded` becomes
`True` only on success and is never reset on failure. -/
def handleInitialization (c : Ctx) (loaded : Bool) : Env × Bool × List Comp :=
  match c.load with
  | .ok info =>
      ({ success := true, response := some (initSuccessMsg info),
         workflow := none, payload := some (.dataInfo (.ok info)) },
        true, [.dataAgent])
  | .err e =>
      ({ success := false, response := some ("❌ Failed to load data: ".data ++ e),
         workflow := none, payload := some (.dataInfo (.err e)) },
        loaded, [.dataAgent])

/-- `CoordinatorAgent.process`: parse the intent and route. -/
def process (c : Ctx) (loaded : Bool) (input : List Char) : Env × Bool × List Comp :=
  match parseIntent input with
  | .initialization => handleInitialization c loaded
  | .dataQueryProfitMargin y => handleDataQuery c loaded input (.pm y)
  | .dataQueryRevenueTrends => handleDataQuery c loaded input .trends
  | .dataQueryTopProducts y => handleDataQuery c loaded input (.top y)
  | .analytics => handleAnalytics c loaded
  | .conversation => handleConversation c loaded input

/-- The query task a data-query intent dispatches, `none` for other
intents. -/
def taskOf : Intent → Option QueryTask
  | .dataQueryProfitMargin y => some (.pm y)
  | .dataQueryRevenueTrends => some .trends
  | .dataQueryTopProducts y => some (.top y)
  | _ => none

/-! ## Helper lemmas: sorted distinct keys and the stable descending sort -/

theorem cn_inj (a b : Char) (h : cn a = cn b) : a = b := by
  apply Char.eq_of_val_eq
  exact UInt32.toNat.inj h

theorem mem_insYear (a x : ℤ) (l : List ℤ) : a ∈ insYear x l ↔ a = x ∨ a ∈ l := by
  induction l with
  | nil => simp [insYear]
  | cons y ys ih =>
    by_cases h1 : x < y
    · simp [insYear, h1]
    · by_cases h2 : x = y
      · simp only [insYear, if_neg h1, if_pos h2, List.mem_cons]
        subst h2
        tauto
      · simp only [insYear, if_neg h1, if_neg h2, List.mem_cons, ih]
        tauto

theorem pairwise_insYear (x : ℤ) (l : List ℤ) (h : List.Pairwise (· < ·) l) :
    List.Pairwise (· < ·) (insYear x l) := by
  induction l with
  | nil => simp [insYear]
  | cons y ys ih =>
    rcases h with _ | ⟨hy, hys⟩
    by_cases h1 : x < y
    · simp only [insYear, if_pos h1]
      refine List.Pairwise.cons ?_ (List.Pairwise.cons hy hys)
      intro z hz
      rcases List.mem_cons.mp hz with rfl | hz'
      · exact h1
      · exact lt_trans h1 (hy z hz')
    · by_cases h2 : x = y
      · simp only [insYear, if_neg h1, if_pos h2]
        exact List.Pairwise.cons hy hys
      · simp only [insYear, if_neg h1, if_neg h2]
        refine List.Pairwise.cons ?_ (ih hys)
        intro z hz
        rcases (mem_insYear z x ys).mp hz with rfl | hz'
        · omega
        · exact hy z hz'

theorem pairwise_sortedYears (l : List ℤ) : List.Pairwise (· < ·) (sortedYears l) := by
  induction l with
  | nil => simp [sortedYears]
  | cons y ys ih => exact pairwise_insYear y _ ih

theorem mem_sortedYears (a : ℤ) (l : List ℤ) : a ∈ sortedYears l ↔ a ∈ l := by
  induction l with
  | nil => simp [sortedYears]
  | cons y ys ih =>
    show a ∈ insYear y (sortedYears ys) ↔ _
    rw [mem_insYear, ih]
    simp

theorem lexLt_trans (a b c : List Char) (h1 : lexLt a b = true) (h2 : lexLt b c = true) :
    lexLt a c = true := by
  induction a generalizing b c with
  | nil =>
    cases b with
    | nil => simp [lexLt] at h1
    | cons y bs =>
      cases c with
      | nil => simp [lexLt] at h2
      | cons z cs => simp [lexLt]
  | cons x as ih =>
    cases b with
    | nil => simp [lexLt] at h1
    | cons y bs =>
      cases c with
      | nil => simp [lexLt] at h2
      | cons z cs =>
        simp only [lexLt] at h1 h2 ⊢
        by_cases hxy : cn x < cn y
        · by_cases hyz : cn y < cn z
          · rw [if_pos (by omega)]
          · rw [if_neg hyz] at h2
            by_cases hyz2 : cn y = cn z
            · rw [if_pos (by omega)]
            · rw [if_neg hyz2] at h2; exact absurd h2 (by simp)
        · rw [if_neg hxy] at h1
          by_cases hxy2 : cn x = cn y
          · rw [if_pos hxy2] at h1
            by_cases hyz : cn y < cn z
            · rw [if_pos (by omega)]
            · rw [if_neg hyz] at h2
              by_cases hyz2 : cn y = cn z
              · rw [if_pos hyz2] at h2
                rw [if_neg (by omega), if_pos (by omega)]
                exact ih bs cs h1 h2
              · rw [if_neg hyz2] at h2; exact absurd h2 (by simp)
          · rw [if_neg hxy2] at h1; exact absurd h1 (by simp)

theorem lexLt_total (a b : List Char) (h1 : lexLt a b = false) (h2 : a ≠ b) :
    lexLt b a = true := by
  induction a generalizing b with
  | nil =>
    cases b with
    | nil => exact absurd rfl h2
    | cons y bs => simp [lexLt] at h1
  | cons x as ih =>
    cases b with
    | nil => simp [lexLt]
    | cons y bs =>
      simp only [lexLt] at h1 ⊢
      by_cases hxy : cn x < cn y
      · rw [if_pos hxy] at h1; exact absurd h1 (by simp)
      · by_cases hxy2 : cn x = cn y
        · rw [if_neg hxy, if_pos hxy2] at h1
          have hx : x = y := cn_inj _ _ hxy2
          subst hx
          rw [if_neg (by omega), if_pos rfl]
          exact ih bs h1 (fun hc => h2 (by rw [hc]))
        · rw [if_pos (by omega)]

theorem mem_insName (a x : List Char) (l : List (List Char)) :
    a ∈ insName x l ↔ a = x ∨ a ∈ l := by
  induction l with
  | nil => simp [insName]
  | cons y ys ih =>
    by_cases h1 : lexLt x y = true
    · simp [insName, h1]
    · by_cases h2 : x = y
      · simp only [insName, if_neg h1, if_pos h2, List.mem_cons]
        subst h2
        tauto
      · simp only [insName, if_neg h1, if_neg h2, List.mem_cons, ih]
        tauto

theorem pairwise_insName (x : List Char) (l : List (List Char))
    (h : List.Pairwise (fun a b => lexLt a b = true) l) :
    List.Pairwise (fun a b => lexLt a b = true) (insName x l) := by
  induction l with
  | nil => simp [insName]
  | cons y ys ih =>
    rcases h with _ | ⟨hy, hys⟩
    by_cases h1 : lexLt x y = true
    · simp only [insName, if_pos h1]
      refine List.Pairwise.cons ?_ (List.Pairwise.cons hy hys)
      intro z hz
      rcases List.mem_cons.mp hz with rfl | hz'
      · exact h1
      · exact lexLt_trans _ _ _ h1 (hy z hz')
    · by_cases h2 : x = y
      · simp only [insName, if_neg h1, if_pos h2]
        exact List.Pairwise.cons hy hys
      · simp only [insName, if_neg h1, if_neg h2]
        refine List.Pairwise.cons ?_ (ih hys)
        intro z hz
        rcases (mem_insName z x ys).mp hz with rfl | hz'
        · exact lexLt_total _ _ (by simpa using h1) h2
        · exact hy z hz'

theorem pairwise_sortedNames (l : List (List Char)) :
    List.Pairwise (fun a b => lexLt a b = true) (sortedNames l) := by
  induction l with
  | nil => simp [sortedNames]
  | cons y ys ih => exact pairwise_insName y _ ih

theorem mem_sortedNames (a : List Char) (l : List (List Char)) :
    a ∈ sortedNames l ↔ a ∈ l := by
  induction l with
  | nil => simp [sortedNames]
  | cons y ys ih =>
    show a ∈ insName y (sortedNames ys) ↔ _
    rw [mem_insName, ih]
    simp

theorem mem_insDesc (a x : ProdRow) (l : List ProdRow) :
    a ∈ insDesc x l ↔ a = x ∨ a ∈ l := by
  induction l with
  | nil => simp [insDesc]
  | cons y ys ih =>
    by_cases h1 : y.revenue ≤ x.revenue
    · simp [insDesc, h1]
    · simp only [insDesc, if_neg h1, List.mem_cons, ih]
      tauto

theorem mem_sortDesc (a : ProdRow) (l : List ProdRow) : a ∈ sortDesc l ↔ a ∈ l := by
  induction l with
  | nil => simp [sortDesc]
  | cons y ys ih =>
    show a ∈ insDesc y (sortDesc ys) ↔ _
    rw [mem_insDesc, ih]
    simp

theorem pairwise_rev_insDesc (x : ProdRow) (l : List ProdRow)
    (hl : List.Pairwise (fun a b => b.revenue ≤ a.revenue) l) :
    List.Pairwise (fun a b => b.revenue ≤ a.revenue) (insDesc x l) := by
  induction l with
  | nil => simp [insDesc]
  | cons b bs ih =>
    rcases hl with _ | ⟨hb, hbs⟩
    by_cases h1 : b.revenue ≤ x.revenue
    · simp only [insDesc, if_pos h1]
      refine List.Pairwise.cons ?_ (List.Pairwise.cons hb hbs)
      intro z hz
      rcases List.mem_cons.mp hz with rfl | hz'
      · exact h1
      · exact le_trans (hb z hz') h1
    · simp only [insDesc, if_neg h1]
      push_neg at h1
      refine List.Pairwise.cons ?_ (ih hbs)
      intro z hz
      rcases (mem_insDesc z x bs).mp hz with rfl | hz'
      · exact le_of_lt h1
      · exact hb z hz'

theorem pairwise_rev_sortDesc (l : List ProdRow) :
    List.Pairwise (fun a b => b.revenue ≤ a.revenue) (sortDesc l) := by
  induction l with
  | nil => simp [sortDesc]
  | cons y ys ih => exact pairwise_rev_insDesc y _ ih

theorem length_insDesc (x : ProdRow) (l : List ProdRow) :
    (insDesc x l).length = l.length + 1 := by
  induction l with
  | nil => rfl
  | cons b bs ih =>
    by_cases h1 : b.revenue ≤ x.revenue
    · simp [insDesc, h1]
    · simp only [insDesc, if_neg h1, List.length_cons, ih]

theorem length_sortDesc (l : List ProdRow) : (sortDesc l).length = l.length := by
  induction l with
  | nil => rfl
  | cons y ys ih => simp only [sortDesc, length_insDesc, ih, List.length_cons]

/-! ## Claim theorems -/

/-- Concrete rows used by witnesses and counterexamples. -/
def rowA : Row :=
  { year := 2015, product := "Bike".data, customerId := "c1".data, orderQuantity := 1,
    revenue := 1000, cost := 800, profit := 200 }

/-- C1: the intent router is a pure function of the lowercased text
(invariant under lowercasing), resolves multiple matching rules by the
fixed rule order — initialization, profit margin, revenue trends, top
products, analytics, conversation — with the first match winning
(`parseIntent` equals first-match resolution over the ordered rule
table), and in particular any text containing "profit margin" and no
initialization keyword is classified as a profit-margin data query, even
if it also matches later rules such as top products. -/
theorem c1_rule_order (s : List Char) :
    parseIntent s = routeSpec s ∧
    parseIntent (lowS s) = parseIntent s ∧
    (anyKw initKws (lowS s) = false → hasSub pmKw (lowS s) = true →
      parseIntent s = .dataQueryProfitMargin (extractYear s)) := by
  refine ⟨?_, ?_, ?_⟩
  · simp only [routeSpec, routeRules, firstMatch, parseIntent]
  · simp only [parseIntent, lowS_idem, extractYear_lowS]
  · intro h1 h2
    simp [parseIntent, h1, h2]

/-- Witness for C1: a message containing "profit margin", "2015" and
"top product" resolves to the profit-margin rule by rule order. -/
theorem c1_rule_order_witness :
    anyKw initKws (lowS "profit margin 2015 top product".data) = false ∧
    hasSub pmKw (lowS "profit margin 2015 top product".data) = true ∧
    anyKw topKws (lowS "profit margin 2015 top product".data) = true ∧
    parseIntent "profit margin 2015 top product".data =
      .dataQueryProfitMargin (extractYear "profit margin 2015 top product".data) ∧
    extractYear "profit margin 2015 top product".data = some 2015 :=
  ⟨by decide, by decide, by decide,
    (c1_rule_order "profit margin 2015 top product".data).2.2 (by decide) (by decide),
    by decide⟩

/-- C3 counterexample: on a loaded one-row dataset for 2015, a null year
does not aggregate across all years — it returns the not-found
dictionary (pandas compares `df['Year'] == None` as all-False). -/
theorem c3_counterexample :
    profitMarginByYear [rowA] none = .notFound none [2015] := by decide

/-- C3 amended: `profitMarginByYear(None)` filters with `Year == None`,
which matches no rows, so for every loaded dataset it returns the
not-found result listing the available years (never a success
aggregate). -/
theorem c3_null_year_amended (rows : List Row) :
    profitMarginByYear rows none = .notFound none (sortedYears (rows.map (·.year))) := by
  have h : rows.filter (yearFilter none) = [] :=
    List.filter_eq_nil_iff.mpr (fun r _ => by simp [yearFilter])
  unfold profitMarginByYear
  simp [h]

/-- C4: for every loaded dataset and every year absent from the `Year`
column, `profitMarginByYear` returns the not-found result whose
`available_years` list is strictly ascending and contains exactly the
years present in the dataset. -/
theorem c4_absent_year (rows : List Row) (y : ℤ) (h : y ∉ rows.map (·.year)) :
    profitMarginByYear rows (some y) = .notFound (some y) (sortedYears (rows.map (·.year))) ∧
    List.Pairwise (· < ·) (sortedYears (rows.map (·.year))) ∧
    (∀ z, z ∈ sortedYears (rows.map (·.year)) ↔ z ∈ rows.map (·.year)) := by
  refine ⟨?_, pairwise_sortedYears _, fun z => mem_sortedYears z _⟩
  have hf : rows.filter (yearFilter (some y)) = [] := by
    rw [List.filter_eq_nil_iff]
    intro r hr
    simp only [yearFilter, decide_eq_true_eq]
    intro heq
    exact h (List.mem_map.mpr ⟨r, hr, heq⟩)
  unfold profitMarginByYear
  simp [hf]

/-- Witness for C4: year 2013 is absent from a dataset whose only year is
2015; the query returns not-found listing exactly `[2015]`. -/
theorem c4_absent_year_witness :
    ((2013:ℤ) ∉ [rowA].map (fun r => r.year)) ∧
    profitMarginByYear [rowA] (some 2013) = .notFound (some 2013) [2015] := by
  refine ⟨by decide, ?_⟩
  have h := (c4_absent_year [rowA] 2013 (by decide)).1
  have h2 : sortedYears ([rowA].map (fun r => r.year)) = [2015] := rfl
  rw [h2] at h
  exact h

/-- Word-boundary condition between a candidate prefix `u` and a match
position, generalized over whether the character before `u` was a word
character (`p`): the match position is preceded by start-of-input or a
non-word character. -/
def boundaryOkP (p : Bool) (u : List Char) : Bool :=
  match u.getLast? with
  | none => !p
  | some c => !(isWordC c)

/-- Word-boundary condition at a split of the whole input: `u ++ v` with
the year pattern starting `v` matches `\b20\d\d\b` exactly when `u` is
empty or ends in a non-word character (and `yearAt v` succeeds). -/
def boundaryOk (u : List Char) : Bool := boundaryOkP false u

theorem boundaryOkP_cons (p : Bool) (c : Char) (u : List Char) :
    boundaryOkP p (c :: u) = boundaryOkP (isWordC c) u := by
  cases u with
  | nil => rfl
  | cons d t => rfl

theorem extractYearAux_none_iff (l : List Char) :
    ∀ p, extractYearAux p l = none ↔
      ∀ u v, l = u ++ v → boundaryOkP p u = true → yearAt v = none := by
  induction l with
  | nil =>
    intro p
    constructor
    · intro _ u v huv _
      have h2 : v = [] := (List.append_eq_nil.mp huv.symm).2
      rw [h2]
      rfl
    · intro _
      rfl
  | cons c rest ih =>
    intro p
    have lhs_iff : extractYearAux p (c :: rest) = none ↔
        ((!p) = true → yearAt (c :: rest) = none) ∧
          extractYearAux (isWordC c) rest = none := by
      cases p with
      | false =>
        cases hy : yearAt (c :: rest) with
        | some y => simp [extractYearAux, hy]
        | none => simp [extractYearAux, hy]
      | true => simp [extractYearAux]
    rw [lhs_iff, ih (isWordC c)]
    constructor
    · rintro ⟨h1, h2⟩ u v huv hb
      cases u with
      | nil =>
        rw [List.nil_append] at huv
        rw [← huv]
        refine h1 ?_
        simpa [boundaryOkP] using hb
      | cons c2 u2 =>
        rw [List.cons_append] at huv
        injection huv with hc hrest
        subst hc
        rw [boundaryOkP_cons] at hb
        exact h2 u2 v hrest hb
    · intro h
      refine ⟨?_, ?_⟩
      · intro hp
        refine h [] (c :: rest) rfl ?_
        simpa [boundaryOkP] using hp
      · intro u v huv hb
        refine h (c :: u) v ?_ ?_
        · rw [huv, List.cons_append]
        · rw [boundaryOkP_cons]
          exact hb

/-- `re.search` finds no match exactly when no word-bounded occurrence
of the year pattern exists at any split of the input. -/
theorem extractYear_none_iff (s : List Char) :
    extractYear s = none ↔
      ∀ u v, s = u ++ v → boundaryOk u = true → yearAt v = none :=
  extractYearAux_none_iff s false

/-- C8 counterexample: "profit margin 2005" contains no four-digit year
in 2010–2029, yet the router extracts 2005 rather than leaving the year
null — the regex alternation `20\d{2}|201\d|202\d` accepts the whole
2000–2099 range. -/
theorem c8_counterexample :
    parseIntent "profit margin 2005".data = .dataQueryProfitMargin (some 2005) ∧
    ¬ ((2010:ℤ) ≤ 2005 ∧ (2005:ℤ) ≤ 2029) := by
  exact ⟨by decide, by decide⟩

/-- C8 amended: in a profit-margin intent the year is extracted by the
word-bounded four-digit pattern `20\d\d`, i.e. any year 2000–2099 (the
`201\d`/`202\d` alternatives are subsumed); the intent carries exactly
`extractYear` of the input, and the extraction is null exactly when no
word-bounded occurrence of the pattern exists at any split of the
input. -/
theorem c8_year_extraction (s : List Char)
    (hinit : anyKw initKws (lowS s) = false) (hpm : hasSub pmKw (lowS s) = true) :
    parseIntent s = .dataQueryProfitMargin (extractYear s) ∧
    (∀ y, extractYear s = some y → 2000 ≤ y ∧ y ≤ 2099) ∧
    (extractYear s = none ↔
      ∀ u v, s = u ++ v → boundaryOk u = true → yearAt v = none) := by
  refine ⟨?_, fun y h => extractYear_range s y h, extractYear_none_iff s⟩
  simp [parseIntent, hinit, hpm]

/-- Witness for C8 at "profit margin 2015". -/
theorem c8_year_extraction_witness :
    anyKw initKws (lowS "profit margin 2015".data) = false ∧
    hasSub pmKw (lowS "profit margin 2015".data) = true ∧
    parseIntent "profit margin 2015".data =
      .dataQueryProfitMargin (extractYear "profit margin 2015".data) ∧
    (2000 ≤ (2015:ℤ) ∧ (2015:ℤ) ≤ 2099) :=
  ⟨by decide, by decide,
    (c8_year_extraction "profit margin 2015".data (by decide) (by decide)).1,
    (c8_year_extraction "profit margin 2015".data (by decide) (by decide)).2.1 2015 (by decide)⟩

/-- C9: the business-mode fallback tries the models in order, moves to
the next model exactly on a capacity failure ("429", or "capacity"
case-insensitively), surfaces any other failure immediately without
trying further models, reports a successful model as the one used
(ignoring the rest of the list), and returns the terminal exhausted
result instead of raising when every model fails with capacity. -/
theorem c9_business_fallback (exchange : List Char → Except (List Char) (List Char)) :
    (∀ a b cmod rest ea eb t,
        exchange a = .error ea → isCapacityFailure ea = true →
        exchange b = .error eb → isCapacityFailure eb = true →
        exchange cmod = .ok t →
        businessFallback exchange (a :: b :: cmod :: rest) = .success t cmod) ∧
    (∀ m rest t, exchange m = .ok t →
        businessFallback exchange (m :: rest) = .success t m) ∧
    (∀ m rest e, exchange m = .error e → isCapacityFailure e = false →
        businessFallback exchange (m :: rest) = .failure e) ∧
    (∀ ms, (∀ m ∈ ms, ∃ e, exchange m = .error e ∧ isCapacityFailure e = true) →
        businessFallback exchange ms = .exhausted) := by
  refine ⟨?_, ?_, ?_, ?_⟩
  · intro a b cmod rest ea eb t ha hca hb hcb hc
    simp [businessFallback, ha, hca, hb, hcb, hc]
  · intro m rest t hm
    simp [businessFallback, hm]
  · intro m rest e hm hcap
    simp [businessFallback, hm, hcap]
  · intro ms h
    induction ms with
    | nil => rfl
    | cons m rest ih =>
      obtain ⟨e, he, hcap⟩ := h m (by simp)
      simp only [businessFallback, he, hcap, if_pos]
      exact ih (fun m' hm' => h m' (by simp [hm']))

/-- A concrete exchange oracle: the first source model rate-limits, the
second reports capacity in mixed case, the third succeeds. -/
def exchangeW (m : List Char) : Except (List Char) (List Char) :=
  if m = "open-mistral-7b".data then .error "HTTP 429 too many requests".data
  else if m = "mistral-tiny".data then .error "Service at CAPACITY".data
  else .ok "ok".data

/-- Witness for C9 on the model list of the source: two capacity
failures fall through and the third model is reported as used. -/
theorem c9_business_fallback_witness :
    businessFallback exchangeW modelList = .success "ok".data "mistral-small-latest".data := by
  have h := (c9_business_fallback exchangeW).1 "open-mistral-7b".data "mistral-tiny".data
    "mistral-small-latest".data [] "HTTP 429 too many requests".data "Service at CAPACITY".data
    "ok".data rfl (by decide) rfl (by decide) rfl
  exact h

/-- A 2015 row with zero revenue and nonzero profit. -/
def rowZero : Row :=
  { year := 2015, product := "Bike".data, customerId := "c1".data, orderQuantity := 1,
    revenue := 0, cost := 3, profit := 5 }

/-- The aggregate profit margin of a profit-margin result (`none` for
the not-found dictionary). -/
def pmMargin : PMResult → Option ℚ
  | .ok _ _ _ _ m _ _ => some m
  | .notFound _ _ => none

/-- C5 counterexample: with 2015 revenue 0 and profit 5, the aggregate
`profit_margin` returned by `profitMarginByYear(2015)` is the number 0 —
not a missing value — because of the `else 0` branch. -/
theorem c5_counterexample :
    profitMarginByYear [rowZero] (some 2015) = .ok 2015 0 5 3 0 1 1 := by
  norm_num [profitMarginByYear, yearFilter, rowZero, sumQ, aggMargin, nuniqueCustomers,
    List.filter, List.sum, List.dedup_cons_of_not_mem]

/-- C5 amended: the per-row `Profit_Margin` feature is `Profit / Revenue
* 100` and is NaN (missing) whenever `Revenue = 0`; the aggregate
`profit_margin` of `profitMarginByYear` instead equals
`round((profit / revenue) * 100, 2)` when the summed revenue is positive
and is the number 0 (not missing) whenever the summed revenue is not
positive. -/
theorem c5_margin_amended :
    (∀ p r : ℚ, r = 0 → rowMargin p r = .nan) ∧
    (∀ p r : ℚ, r ≠ 0 → rowMargin p r = .num (p / r * 100)) ∧
    (∀ rows y, rows.filter (yearFilter (some y)) ≠ [] →
        pmMargin (profitMarginByYear rows (some y)) =
          some (aggMargin (sumQ (·.profit) (rows.filter (yearFilter (some y))))
            (sumQ (·.revenue) (rows.filter (yearFilter (some y)))))) ∧
    (∀ tp tr : ℚ, ¬ 0 < tr → aggMargin tp tr = 0) ∧
    (∀ tp tr : ℚ, 0 < tr → aggMargin tp tr = round2 (tp / tr * 100)) := by
  refine ⟨?_, ?_, ?_, ?_, ?_⟩
  · intro p r h
    subst h
    by_cases hp : p = 0
    · simp [rowMargin, fdivQ, hp, pmulPos, replaceInfNan]
    · by_cases hp2 : 0 < p
      · simp [rowMargin, fdivQ, hp, hp2, pmulPos, replaceInfNan]
      · simp [rowMargin, fdivQ, hp, hp2, pmulPos, replaceInfNan]
  · intro p r h
    simp [rowMargin, fdivQ, h, pmulPos, replaceInfNan]
  · intro rows y hne
    unfold profitMarginByYear
    simp only [hne, if_false, pmMargin]
  · intro tp tr h
    simp [aggMargin, h]
  · intro tp tr h
    simp [aggMargin, h]

/-- Witness for C5: the per-row margin at profit 5, revenue 0 is NaN,
while the aggregate margin formula at the same totals yields the
number 0. -/
theorem c5_margin_amended_witness :
    rowMargin 5 0 = .nan ∧ aggMargin 5 0 = 0 :=
  ⟨c5_margin_amended.1 5 0 rfl, c5_margin_amended.2.2.2.1 5 0 (by norm_num)⟩

theorem addGrowth_year_map (l : List (ℤ × ℚ × ℚ × ℤ × ℕ)) :
    ∀ prev, (addGrowth prev l).map (·.year) = l.map (fun t => t.1) := by
  induction l with
  | nil => intro prev; rfl
  | cons x rest ih =>
    intro prev
    obtain ⟨y, rev, prof, ord, cust⟩ := x
    simp only [addGrowth, List.map_cons, ih]

theorem addGrowth_length (l : List (ℤ × ℚ × ℚ × ℤ × ℕ)) :
    ∀ prev, (addGrowth prev l).length = l.length := by
  induction l with
  | nil => intro prev; rfl
  | cons x rest ih =>
    intro prev
    obtain ⟨y, rev, prof, ord, cust⟩ := x
    simp only [addGrowth, List.length_cons, ih]

theorem addGrowth_head_growth (l : List (ℤ × ℚ × ℚ × ℤ × ℕ)) (h : addGrowth none l ≠ []) :
    ((addGrowth none l).head h).revenueGrowth = .nan := by
  cases l with
  | nil => exact absurd rfl h
  | cons x rest =>
    obtain ⟨y, rev, prof, ord, cust⟩ := x
    rfl

theorem addGrowth_get_succ (l : List (ℤ × ℚ × ℚ × ℤ × ℕ)) :
    ∀ prev i (hi : i + 1 < (addGrowth prev l).length),
      ((addGrowth prev l).get ⟨i + 1, hi⟩).revenueGrowth =
        pround2 (growthRaw
          ((addGrowth prev l).get ⟨i, by omega⟩).revenue
          ((addGrowth prev l).get ⟨i + 1, hi⟩).revenue) := by
  induction l with
  | nil => intro prev i hi; simp [addGrowth] at hi
  | cons x rest ih =>
    intro prev i hi
    obtain ⟨y, rev, prof, ord, cust⟩ := x
    cases i with
    | zero =>
      cases rest with
      | nil =>
        simp [addGrowth, addGrowth_length] at hi
      | cons z rest2 =>
        obtain ⟨y2, rev2, prof2, ord2, cust2⟩ := z
        rfl
    | succ j =>
      have h2 : j + 1 < (addGrowth (some rev) rest).length := by
        have := hi
        simp only [addGrowth, List.length_cons] at this
        omega
      have := ih (some rev) j h2
      simpa [addGrowth, List.get_cons_succ] using this

/-- C6 amended: `revenueTrends` rows are strictly ascending by year; the
first row growth is NaN (null); each later row growth is
`round2(pct_change * 100)` of the two consecutive yearly revenues, which
equals `(curr - prev) / prev * 100` rounded when the previous revenue is
nonzero, but is positive or negative infinity — not null — when the
previous revenue is 0 and the current one is nonzero (NaN only when both
are 0); for revenues 100 then 150 the growth is exactly 50.0. -/
theorem c6_trends_amended (rows : List Row) (startY endY : Option ℤ) :
    List.Pairwise (fun a b => a.year < b.year) (revenueTrends rows startY endY) ∧
    (∀ h : revenueTrends rows startY endY ≠ [],
        ((revenueTrends rows startY endY).head h).revenueGrowth = .nan) ∧
    (∀ i (hi : i + 1 < (revenueTrends rows startY endY).length),
        ((revenueTrends rows startY endY).get ⟨i + 1, hi⟩).revenueGrowth =
          pround2 (growthRaw
            ((revenueTrends rows startY endY).get ⟨i, by omega⟩).revenue
            ((revenueTrends rows startY endY).get ⟨i + 1, hi⟩).revenue)) ∧
    (∀ p q : ℚ, p ≠ 0 → pround2 (growthRaw p q) = .num (round2 ((q - p) / p * 100))) ∧
    (∀ p q : ℚ, p = 0 → 0 < q → pround2 (growthRaw p q) = .pinf) ∧
    (∀ p q : ℚ, p = 0 → q < 0 → pround2 (growthRaw p q) = .ninf) ∧
    (∀ p q : ℚ, p = 0 → q = 0 → pround2 (growthRaw p q) = .nan) ∧
    pround2 (growthRaw 100 150) = .num 50 := by
  refine ⟨?_, ?_, ?_, ?_, ?_, ?_, ?_, ?_⟩
  · have hmap : (revenueTrends rows startY endY).map (·.year) =
        sortedYears ((boundFiltered rows startY endY).map (·.year)) := by
      unfold revenueTrends
      rw [addGrowth_year_map, List.map_map]
      have hfun : ((fun t : ℤ × ℚ × ℚ × ℤ × ℕ => t.1) ∘
          yearAgg (boundFiltered rows startY endY)) = fun y => y := by
        funext y; rfl
      rw [hfun, List.map_id']
    have hpw : List.Pairwise (· < ·) ((revenueTrends rows startY endY).map (·.year)) := by
      rw [hmap]; exact pairwise_sortedYears _
    exact (List.pairwise_map).mp hpw
  · intro h
    exact addGrowth_head_growth _ h
  · intro i hi
    exact addGrowth_get_succ _ none i hi
  · intro p q h
    have : q / p - 1 = (q - p) / p := by field_simp
    simp [growthRaw, fdivQ, h, psub1, pmulPos, pround2, this]
  · intro p q h h2
    subst h
    simp [growthRaw, fdivQ, (by linarith : q ≠ 0), h2, psub1, pmulPos, pround2]
  · intro p q h h2
    subst h
    simp [growthRaw, fdivQ, (by linarith : q ≠ 0), (by linarith : ¬ 0 < q), psub1, pmulPos, pround2]
  · intro p q h h2
    subst h; subst h2
    simp [growthRaw, fdivQ, psub1, pmulPos, pround2]
  · have : ((150:ℚ) / 100 - 1) * 100 = 50 := by norm_num
    simp [growthRaw, fdivQ, psub1, pmulPos, pround2, this, round2, roundHE]
    norm_num

/-- A 2014 row with zero revenue (for the zero-previous-revenue growth). -/
def rowZ14 : Row :=
  { year := 2014, product := "Bike".data, customerId := "c1".data, orderQuantity := 1,
    revenue := 0, cost := 0, profit := 0 }

/-- A 2015 row with revenue 100. -/
def rowR15 : Row :=
  { year := 2015, product := "Bike".data, customerId := "c1".data, orderQuantity := 1,
    revenue := 100, cost := 50, profit := 50 }

/-- C6 counterexample: with yearly revenues 0 (2014) then 100 (2015),
the growth of the second row is positive infinity, not null — pandas
`pct_change` divides by the zero previous revenue. -/
theorem c6_counterexample :
    (revenueTrends [rowZ14, rowR15] none none).map (·.revenueGrowth) = [.nan, .pinf] ∧
    PVal.pinf ≠ PVal.nan := by
  constructor
  · norm_num [revenueTrends, boundFiltered, truthy, sortedYears, insYear, yearAgg, addGrowth,
      growthRaw, fdivQ, psub1, pmulPos, pround2, sumQ, sumZ, nuniqueCustomers, rowZ14, rowR15,
      List.filter, List.sum]
  · decide

/-- Witness for C6: on the concrete two-year dataset the theorem applies
at index 0 with its length hypothesis discharged, and the nonzero-previous
branch applies at 100 and 150. -/
theorem c6_trends_amended_witness :
    (100:ℚ) ≠ 0 ∧
    pround2 (growthRaw 100 150) = .num (round2 ((150 - 100) / 100 * 100)) ∧
    ((revenueTrends [rowZ14, rowR15] none none).get ⟨1, by decide⟩).revenueGrowth =
      pround2 (growthRaw
        ((revenueTrends [rowZ14, rowR15] none none).get ⟨0, by decide⟩).revenue
        ((revenueTrends [rowZ14, rowR15] none none).get ⟨1, by decide⟩).revenue) :=
  ⟨by norm_num,
    (c6_trends_amended [] none none).2.2.2.1 100 150 (by norm_num),
    (c6_trends_amended [rowZ14, rowR15] none none).2.2.1 0 (by decide)⟩

/-- C7 counterexample: `Product` is categorical and the groupby default
is `observed=False`, so for a year matching no rows the query does not
return an empty list — it returns one zero-revenue record per category
level of the full dataset (`head(limit)` of them). -/
theorem c7_counterexample :
    topFiltered [rowA] (some 2013) = [] ∧
    (topProducts [rowA] (some 2013) 5).products =
      [{ product := "Bike".data, revenue := 0, profit := 0, orders := 0 }] ∧
    (topProducts [rowA] (some 2013) 5).products ≠ [] := by
  exact ⟨by decide, by decide, by decide⟩

/-- C7 amended: `topProducts` always succeeds, returns at most `limit`
records ordered by summed revenue weakly descending (the unstable sort
leaves the order of revenue ties unspecified, so no tie order is
asserted), every returned name is a product-category level of the full
dataset; and when no rows match the year filter the result is not the
empty list but `min limit (number of category levels)` records, each
aggregating to zero revenue, zero profit and zero orders. -/
theorem c7_top_products_amended (rows : List Row) (year : Option ℤ) (limit : ℕ) :
    (topProducts rows year limit).success = true ∧
    (topProducts rows year limit).products.length ≤ limit ∧
    List.Pairwise (fun a b => b.revenue ≤ a.revenue) (topProducts rows year limit).products ∧
    (∀ pr ∈ (topProducts rows year limit).products, pr.product ∈ rows.map (·.product)) ∧
    (topFiltered rows year = [] →
      (topProducts rows year limit).products.length =
        min limit (sortedNames (rows.map (·.product))).length ∧
      (∀ pr ∈ (topProducts rows year limit).products,
        pr.revenue = 0 ∧ pr.profit = 0 ∧ pr.orders = 0)) := by
  refine ⟨rfl, ?_, ?_, ?_, ?_⟩
  · show ((sortDesc _).take limit).length ≤ limit
    rw [List.length_take]
    exact min_le_left _ _
  · show List.Pairwise _ ((sortDesc _).take limit)
    exact List.Pairwise.sublist (List.take_sublist _ _) (pairwise_rev_sortDesc _)
  · intro pr hpr
    have h1 : pr ∈ sortDesc ((topKeys rows).map (prodAgg (topFiltered rows year))) :=
      List.take_subset _ _ hpr
    have h2 := (mem_sortDesc _ _).mp h1
    obtain ⟨k, hk, rfl⟩ := List.mem_map.mp h2
    show (prodAgg (topFiltered rows year) k).product ∈ _
    have hp : (prodAgg (topFiltered rows year) k).product = k := rfl
    rw [hp]
    exact (mem_sortedNames k _).mp hk
  · intro hf
    constructor
    · show ((sortDesc ((topKeys rows).map (prodAgg (topFiltered rows year)))).take limit).length = _
      rw [List.length_take, length_sortDesc, List.length_map]
      rfl
    · intro pr hpr
      have h1 : pr ∈ sortDesc ((topKeys rows).map (prodAgg (topFiltered rows year))) :=
        List.take_subset _ _ hpr
      have h2 := (mem_sortDesc _ _).mp h1
      obtain ⟨k, hk, rfl⟩ := List.mem_map.mp h2
      rw [hf]
      exact ⟨rfl, rfl, rfl⟩

/-- Witness for C7: a 2013 filter matches no rows of a one-product 2015
dataset; the result has `min 5 1` records, all zero. -/
theorem c7_top_products_amended_witness :
    topFiltered [rowA] (some 2013) = [] ∧
    (topProducts [rowA] (some 2013) 5).products.length =
      min 5 (sortedNames ([rowA].map (·.product))).length :=
  ⟨by decide, ((c7_top_products_amended [rowA] (some 2013) 5).2.2.2.2 (by decide)).1⟩

/-- A concrete coordinator context: empty dataframe, canned
conversational responses, successful analytics, failing load. -/
def ctx0 : Ctx :=
  { rows := [],
    chat := fun _ _ => { success := true, response := some "ok".data },
    explainResults := fun _ => { success := true, response := some "ok".data },
    generateInsights := { success := true, response := some "ok".data },
    analytics := .ok,
    load := .err "bad file".data }

/-- C2: in the NoData state (`data_loaded = false`) every data-query
intent returns the fixed not-loaded failure envelope and every analytics
intent returns its fixed not-loaded failure envelope, in both cases with
an empty invocation trace (neither the DataStore nor the Analytics
Runner nor the Bridge runs) and with the state unchanged; and the
`data_loaded` flag can become true only when it already was or when the
intent is an initialization whose load succeeded. -/
theorem c2_nodata_state (c : Ctx) (input : List Char) :
    (∀ qt, taskOf (parseIntent input) = some qt →
        process c false input =
          ({ success := false, response := some msgNotLoadedQuery,
             workflow := none, payload := none }, false, [])) ∧
    (parseIntent input = .analytics →
        process c false input =
          ({ success := false, response := some msgNotLoadedAnalytics,
             workflow := none, payload := none }, false, [])) ∧
    (∀ loaded, (process c loaded input).2.1 = true →
        loaded = true ∨ (parseIntent input = .initialization ∧ ∃ info, c.load = .ok info)) := by
  refine ⟨?_, ?_, ?_⟩
  · intro qt hqt
    cases hp : parseIntent input <;> simp [taskOf, hp] at hqt <;>
      simp [process, hp, handleDataQuery]
  · intro hp
    simp [process, hp, handleAnalytics]
  · intro loaded h
    cases hp : parseIntent input
    case initialization =>
      cases hl : c.load with
      | ok info => exact Or.inr ⟨rfl, info, rfl⟩
      | err e =>
        simp [process, hp, handleInitialization, hl] at h
        exact Or.inl h
    case dataQueryProfitMargin y =>
      simp [process, hp, handleDataQuery] at h
      split at h <;> simp_all
    case dataQueryRevenueTrends =>
      simp [process, hp, handleDataQuery] at h
      split at h <;> simp_all
    case dataQueryTopProducts y =>
      simp [process, hp, handleDataQuery] at h
      split at h <;> simp_all
    case analytics =>
      simp [process, hp, handleAnalytics] at h
      split at h <;> simp_all
    case conversation =>
      simp [process, hp, handleConversation] at h
      exact Or.inl h

/-- Witness for C2: a profit-margin query in the NoData state returns
the fixed not-loaded envelope with an empty trace. -/
theorem c2_nodata_state_witness :
    taskOf (parseIntent "profit margin".data) = some (.pm none) ∧
    process ctx0 false "profit margin".data =
      ({ success := false, response := some msgNotLoadedQuery,
         workflow := none, payload := none }, false, []) :=
  ⟨by decide, (c2_nodata_state ctx0 "profit margin".data).1 (.pm none) (by decide)⟩

/-- C10 counterexample: the initialization path returns an envelope with
no `workflow` key at all, so not every coordinator path reports the
invoked components. -/
theorem c10_counterexample :
    parseIntent "load data".data = .initialization ∧
    (process ctx0 false "load data".data).1.workflow = none := by
  exact ⟨by decide, by decide⟩

/-- C10 amended: only the data-query success, analytics success and
conversation paths return a `workflow` field, with the fixed contents
`["data_agent", "conversational_agent"]`,
`["data_agent", "analytics_agent", "conversational_agent"]` and
`["conversational_agent"]` respectively; the data-query failure path
(which returns the raw chat dictionary), the analytics failure path,
the initialization path and both not-loaded rejections return envelopes
without a `workflow` field.  Moreover the field does not always list
exactly the components invoked: in the loaded-conversation path the
coordinator also invokes the data agent for a summary
(coordinator.py line 161) although its workflow names only the
conversational agent, and the analytics-success workflow names the data
agent although no data-agent operation is invoked there (the last two
conjuncts state the actual invocation traces). -/
theorem c10_workflow_amended (c : Ctx) (loaded : Bool) (input : List Char) :
    (∀ qt, taskOf (parseIntent input) = some qt → loaded = true →
        quSuccess (runQuery c.rows qt) = true →
        (process c loaded input).1.workflow = some [.dataAgent, .conversationalAgent]) ∧
    (∀ qt, taskOf (parseIntent input) = some qt → loaded = true →
        quSuccess (runQuery c.rows qt) = false →
        (process c loaded input).1.workflow = none) ∧
    (∀ qt, taskOf (parseIntent input) = some qt → loaded = false →
        (process c loaded input).1.workflow = none) ∧
    (parseIntent input = .analytics → loaded = true → c.analytics = .ok →
        (process c loaded input).1.workflow =
          some [.dataAgent, .analyticsAgent, .conversationalAgent]) ∧
    (∀ e, parseIntent input = .analytics → loaded = true → c.analytics = .err e →
        (process c loaded input).1.workflow = none) ∧
    (parseIntent input = .analytics → loaded = false →
        (process c loaded input).1.workflow = none) ∧
    (parseIntent input = .conversation →
        (process c loaded input).1.workflow = some [.conversationalAgent]) ∧
    (parseIntent input = .initialization →
        (process c loaded input).1.workflow = none) ∧
    (parseIntent input = .conversation → loaded = true →
        (process c loaded input).2.2 = [.dataAgent, .conversationalAgent]) ∧
    (parseIntent input = .analytics → loaded = true → c.analytics = .ok →
        (process c loaded input).2.2 = [.analyticsAgent, .conversationalAgent]) := by
  refine ⟨?_, ?_, ?_, ?_, ?_, ?_, ?_, ?_, ?_, ?_⟩
  · intro qt hqt hl hs
    subst hl
    cases hp : parseIntent input <;> simp [taskOf, hp] at hqt <;>
      (subst hqt; simp [process, hp, handleDataQuery, hs])
  · intro qt hqt hl hs
    subst hl
    cases hp : parseIntent input <;> simp [taskOf, hp] at hqt <;>
      (subst hqt; simp [process, hp, handleDataQuery, hs])
  · intro qt hqt hl
    subst hl
    cases hp : parseIntent input <;> simp [taskOf, hp] at hqt <;>
      simp [process, hp, handleDataQuery]
  · intro hp hl ha
    subst hl
    simp [process, hp, handleAnalytics, ha]
  · intro e hp hl ha
    subst hl
    simp [process, hp, handleAnalytics, ha]
  · intro hp hl
    subst hl
    simp [process, hp, handleAnalytics]
  · intro hp
    simp [process, hp, handleConversation]
  · intro hp
    cases hl : c.load with
    | ok info => simp [process, hp, handleInitialization, hl]
    | err e => simp [process, hp, handleInitialization, hl]
  · intro hp hl
    subst hl
    simp [process, hp, handleConversation]
  · intro hp hl ha
    subst hl
    simp [process, hp, handleAnalytics, ha]

/-- Witness for C10: the initialization path has no workflow field; the
conversation path reports only the conversational agent in the field,
yet its loaded invocation trace also contains the data agent. -/
theorem c10_workflow_amended_witness :
    parseIntent "load data".data = .initialization ∧
    (process ctx0 true "load data".data).1.workflow = none ∧
    parseIntent "hello there".data = .conversation ∧
    (process ctx0 false "hello there".data).1.workflow = some [.conversationalAgent] ∧
    (process ctx0 true "hello there".data).2.2 = [.dataAgent, .conversationalAgent] ∧
    (process ctx0 true "hello there".data).1.workflow = some [.conversationalAgent] :=
  ⟨by decide,
    (c10_workflow_amended ctx0 true "load data".data).2.2.2.2.2.2.2.1 (by decide),
    by decide,
    (c10_workflow_amended ctx0 false "hello there".data).2.2.2.2.2.2.1 (by decide),
    (c10_workflow_amended ctx0 true "hello there".data).2.2.2.2.2.2.2.2.1 (by decide) rfl,
    (c10_workflow_amended ctx0 true "hello there".data).2.2.2.2.2.2.1 (by decide)⟩
